import Mathlib

/-!
Verification development for the goingenv core: a shallow embedding of
the archive service (`internal/archive/archive.go`) and the filesystem
scanner (`internal/scanner/scanner.go`), together with proofs about the
pack/unpack/list pipeline.

The filesystem is modelled as an association list from path strings to
file data; every operation of the Go code that the properties below
mention is translated function by function.  The cryptographic envelope
(`internal/crypto`, not part of the scanned sources) is modelled from the
specification as an abstract authenticated encryption: see `encrypt` and
`decrypt` below.
-/

/-! ## String and path helpers (model of Go `path/filepath` on Unix) -/

/-- Boolean test that one character list is a leading run of another. -/
def listIsPre : List Char → List Char → Bool
  | [], _ => true
  | _ :: _, [] => false
  | a :: as, b :: bs => a = b && listIsPre as bs

/-- Model of Go `strings.HasPrefix s pre`. -/
def strStarts (s pre : String) : Bool := listIsPre pre.data s.data

/-- Model of Go `strings.HasSuffix s suf`. -/
def strEnds (s suf : String) : Bool := listIsPre suf.data.reverse s.data.reverse

/-- Boolean test that `needle` occurs contiguously inside `hay`. -/
def listInfixOf (needle hay : List Char) : Bool :=
  match hay with
  | [] => needle.isEmpty
  | _ :: t => listIsPre needle hay || listInfixOf needle t

/-- Model of Go `strings.Contains s sub`. -/
def strContainsSub (s sub : String) : Bool := listInfixOf sub.data s.data

/-- Model of Go `strings.Count s "/"`: number of separator characters. -/
def countSep (s : String) : Nat := s.data.count '/'

/-- Split a character list on a separator character (used to cut a path
into its segments, like Go's internal path cleaning does). -/
def splitChar (c : Char) : List Char → List (List Char)
  | [] => [[]]
  | x :: xs =>
    let r := splitChar c xs
    if x = c then [] :: r
    else
      match r with
      | h :: t => (x :: h) :: t
      | [] => [[x]]

/-- Path segments of a string path. -/
def segsOf (p : String) : List String := (splitChar '/' p.data).map String.mk

/-- Join segments back with `/` separators. -/
def sepJoin : List String → String
  | [] => ""
  | [s] => s
  | s :: rest => s ++ "/" ++ sepJoin rest

/-- Core of Go `filepath.Clean`: process segments left to right keeping a
stack of output segments; `""` and `"."` segments vanish, `".."` pops
(except at the root, where it vanishes, or at the front of a relative
path, where it accumulates). -/
def cleanCore : List String → List String → Bool → List String
  | [], stack, _ => stack.reverse
  | s :: rest, stack, rooted =>
    if s = "" || s = "." then cleanCore rest stack rooted
    else if s = ".." then
      match stack with
      | [] => if rooted then cleanCore rest [] rooted else cleanCore rest [".."] rooted
      | top :: stk =>
        if top = ".." then cleanCore rest (".." :: top :: stk) rooted
        else cleanCore rest stk rooted
    else cleanCore rest (s :: stack) rooted

/-- Model of Go `filepath.Clean` for Unix paths. -/
def cleanPath (p : String) : String :=
  let rooted := strStarts p "/"
  let body := sepJoin (cleanCore (segsOf p) [] rooted)
  if rooted then (if body = "" then "/" else "/" ++ body)
  else (if body = "" then "." else body)

/-- Model of Go `filepath.Join` for two non-empty elements: concatenation
with a separator followed by `Clean`. -/
def joinPath (a b : String) : String := cleanPath (a ++ "/" ++ b)

/-- Model of Go `filepath.Abs`: a rooted path is cleaned, a relative path
is joined onto the working directory `cwd`. -/
def absPath (cwd p : String) : String :=
  if strStarts p "/" then cleanPath p else joinPath cwd p

/-! ## Error values

Go errors are modelled as a small inductive: `msg` for `fmt.Errorf`
leaves, `wrap` for `fmt.Errorf("...: %w", err)`, the crypto error kinds
from the spec, and `archiveError` for `types.ArchiveError{Operation,
Path, Err}`. -/

inductive GErr where
  | msg (s : String)
  | wrap (context : String) (cause : GErr)
  | cryptoAuth
  | cryptoEmptyPassword
  | archiveError (op : String) (path : String) (cause : GErr)
  deriving DecidableEq, Repr

deriving instance DecidableEq for Except

/-! ## Data model (`pkg/types`, reconstructed from its uses in src) -/

/-- One scanned file (`types.EnvFile`).  Sizes and times are `Int`,
matching Go's `int64` and a timestamp. -/
structure EnvFile where
  path : String
  relativePath : String
  size : Int
  modTime : Int
  checksum : String
  deriving DecidableEq, Repr

/-- Archive metadata (`types.Archive`). -/
structure ArchiveMeta where
  createdAt : Int
  version : String
  description : String
  files : List EnvFile
  totalSize : Int
  deriving DecidableEq, Repr

/-- Payload of one tar entry.  The JSON serialization of the metadata is
abstracted: a `meta` payload stands for the marshalled JSON bytes (the
standard-library codec round-trips it; no claim inspects the raw JSON). -/
inductive EC where
  | bytes (bs : List Nat)
  | meta (a : ArchiveMeta)
  deriving DecidableEq, Repr

/-- One entry of the ustar stream: name, mode bits, modification time and
payload, exactly the header fields the Go code reads and writes. -/
structure TarEntry where
  name : String
  mode : Nat
  mtime : Int
  content : EC
  deriving DecidableEq, Repr

/-- An authenticated ciphertext.  Modelled from the spec: the real
`internal/crypto` service (PBKDF2-HMAC-SHA256 key derivation plus
AES-256-GCM, salt and nonce per blob) is not among the scanned sources;
per spec §4.1 a ciphertext is a blob that decrypts to its exact plaintext
under the password used to produce it and fails authentication under any
other password, so a ciphertext is modelled as the pair of both.  Salt
and nonce freshness are not needed by the properties proved here. -/
structure Cipher where
  payload : List TarEntry
  password : String
  deriving DecidableEq, Repr

/-- Contents of a file in the modelled filesystem: raw bytes, marshalled
metadata JSON, a complete ciphertext, or a truncated ciphertext (the
proper prefix that a failed `os.WriteFile` leaves behind). -/
inductive FC where
  | bytes (bs : List Nat)
  | meta (a : ArchiveMeta)
  | enc (c : Cipher)
  | truncEnc (c : Cipher)
  deriving DecidableEq, Repr

/-- Per-file state: contents, permission bits and modification time. -/
structure FileData where
  content : FC
  mode : Nat
  mtime : Int
  deriving DecidableEq, Repr

/-- The filesystem: an association list from paths to file data; the
first binding of a path is its current state.  Directories are implicit
(`os.MkdirAll` cannot fail in the model). -/
abbrev FS := List (String × FileData)

/-- Current data of a path, if the file exists (model of a successful
`os.Stat`/`os.ReadFile`). -/
def fsLookup : FS → String → Option FileData
  | [], _ => none
  | (k, v) :: rest, p => if k = p then some v else fsLookup rest p

/-- Remove every binding of a path. -/
def fsErase : FS → String → FS
  | [], _ => []
  | (k, v) :: rest, p => if k = p then fsErase rest p else (k, v) :: fsErase rest p

/-- Create or replace a file (model of `os.Create`/`os.WriteFile`). -/
def fsWrite (fs : FS) (p : String) (d : FileData) : FS := (p, d) :: fs

/-- Model of `os.Rename src dst` when `src` exists: the destination is
replaced by the source's data and the source vanishes. -/
def fsRename (fs : FS) (src dst : String) : FS :=
  match fsLookup fs src with
  | none => fs
  | some d => fsWrite (fsErase fs src) dst d

/-! ## Cryptographic envelope (modelled from the spec, §4.1) -/

/-- Modelled from the spec: `Encrypt` of the missing `internal/crypto`
service rejects an empty password with `CryptoError{Empty}` and otherwise
produces a fresh authenticated ciphertext of the plaintext. -/
def encrypt (payload : List TarEntry) (password : String) : Except GErr Cipher :=
  if password = "" then .error .cryptoEmptyPassword
  else .ok { payload := payload, password := password }

/-- Modelled from the spec: `Decrypt` of the missing `internal/crypto`
service rejects an empty password with `CryptoError{Empty}`; on a
complete ciphertext it recovers the plaintext exactly when the password
matches and fails with `CryptoError{Auth}` otherwise; truncated or
arbitrary data fails authentication. -/
def decrypt (c : FC) (password : String) : Except GErr (List TarEntry) :=
  if password = "" then .error .cryptoEmptyPassword
  else
    match c with
    | .enc cc => if password = cc.password then .ok cc.payload else .error .cryptoAuth
    | _ => .error .cryptoAuth

/-! ## Archive service (`internal/archive/archive.go`) -/

/-- Options for `Service.Pack` (`types.PackOptions`). -/
structure PackOptions where
  files : List EnvFile
  outputPath : String
  password : String
  description : String
  deriving DecidableEq, Repr

/-- Options for `Service.Unpack` (`types.UnpackOptions`). -/
structure UnpackOptions where
  archivePath : String
  password : String
  targetDir : String
  overwrite : Bool
  backup : Bool
  deriving DecidableEq, Repr

/-- `safePath` of archive.go: reject an absolute name or a name containing
the substring `..`, then join onto the base directory and require the
absolute resolution to stay lexically inside the absolute base.  `cwd` is
the working directory that `filepath.Abs` would consult. -/
def safePath (cwd name baseDir : String) : Except GErr String :=
  if strStarts name "/" || strContainsSub name ".." then
    .error (.msg ("unsafe path detected: " ++ name))
  else
    let target := joinPath baseDir name
    let absBase := absPath cwd baseDir
    let absTarget := absPath cwd target
    let absBaseSlash := if strEnds absBase "/" then absBase else absBase ++ "/"
    if strStarts absTarget absBaseSlash then .ok target
    else .error (.msg ("path traversal detected: " ++ name))

/-- `handleExisting` of archive.go: decide whether to skip an existing
target, and perform the backup rename when requested.  Returns the skip
flag, the lines printed, and the (possibly renamed) filesystem.
`backupFile` is `os.Rename(path, path + ".backup")`, which in the model
always succeeds when the source exists. -/
def handleExisting (fs : FS) (path : String) (overwrite backup : Bool) :
    Bool × List String × FS :=
  match fsLookup fs path with
  | none => (false, [], fs)
  | some _ =>
    if overwrite = false then (true, ["Skipping existing file: " ++ path], fs)
    else if backup then (false, [], fsRename fs path (path ++ ".backup"))
    else (false, [], fs)

/-- `safeMode` computed by `Service.extractFile`: keep at most the owner
read/write bits of the entry mode, defaulting to `0o600` when the masking
yields zero. -/
def safeMode (m : Nat) : Nat :=
  let sm := (m &&& 0o777) &&& 0o600
  if sm = 0 then 0o600 else sm

/-- Payload of a tar entry as file contents (the streaming copy of
`Service.extractFile`). -/
def contentOfEC : EC → FC
  | .bytes bs => .bytes bs
  | .meta a => .meta a

/-- `Service.extractFile`: create the target, copy the payload, chmod to
`safeMode` and set the modification time to the entry's recorded one. -/
def extractFile (fs : FS) (targetPath : String) (e : TarEntry) : FS :=
  fsWrite fs targetPath
    { content := contentOfEC e.content, mode := safeMode e.mode, mtime := e.mtime }

/-- Result of the unpack loop: final filesystem, lines printed, and the
error, if any.  In Go the filesystem effects performed before an error
persist, so the state is returned in every case. -/
structure UnpackResult where
  fs : FS
  logs : List String
  err : Option GErr
  deriving DecidableEq

/-- `Service.extractEntry`: skip the metadata entry, validate the name,
ensure the parent directory (implicit here), consult `handleExisting`,
and extract. -/
def extractEntry (cwd : String) (fs : FS) (e : TarEntry) (opts : UnpackOptions) :
    UnpackResult :=
  if e.name = "metadata.json" then { fs := fs, logs := [], err := none }
  else
    match safePath cwd e.name opts.targetDir with
    | .error pe => { fs := fs, logs := [], err := some pe }
    | .ok target =>
      let r := handleExisting fs target opts.overwrite opts.backup
      if r.1 then { fs := r.2.2, logs := r.2.1, err := none }
      else { fs := extractFile r.2.2 target e, logs := r.2.1, err := none }

/-- The entry loop of `Service.Unpack`: extract entries in order, wrapping
the first failure as `ArchiveError{unpack, header.Name, cause}` and
stopping there. -/
def unpackEntries (cwd : String) (fs : FS) (es : List TarEntry) (opts : UnpackOptions) :
    UnpackResult :=
  match es with
  | [] => { fs := fs, logs := [], err := none }
  | e :: rest =>
    let r := extractEntry cwd fs e opts
    match r.err with
    | some err =>
      { fs := r.fs, logs := r.logs, err := some (.archiveError "unpack" e.name err) }
    | none =>
      let r2 := unpackEntries cwd r.fs rest opts
      { fs := r2.fs, logs := r.logs ++ r2.logs, err := r2.err }

/-- `Service.Unpack`: read the archive file, decrypt it (wrapping failures
as `ArchiveError{unpack, archivePath, cause}` exactly as
`decryptArchive` + `Unpack` do), then run the entry loop. -/
def Unpack (cwd : String) (fs : FS) (opts : UnpackOptions) : UnpackResult :=
  match fsLookup fs opts.archivePath with
  | none =>
    { fs := fs, logs := [],
      err := some (.archiveError "unpack" opts.archivePath
        (.wrap "failed to read archive" (.msg "file does not exist"))) }
  | some d =>
    match decrypt d.content opts.password with
    | .error e =>
      { fs := fs, logs := [],
        err := some (.archiveError "unpack" opts.archivePath
          (.wrap "failed to decrypt archive" e)) }
    | .ok entries => unpackEntries cwd fs entries opts

/-- `Service.writeFileToTar`: stat and read the file, emitting a tar entry
whose name is the relative path and whose mode, mtime and payload are the
file's current ones.  Only raw byte contents are readable here: packing
one of the model's opaque ciphertext values is not exercised by any
property (the abstraction of the crypto envelope keeps ciphertext out of
the byte domain). -/
def writeFileToTar (fs : FS) (f : EnvFile) : Except GErr TarEntry :=
  match fsLookup fs f.path with
  | none => .error (.msg ("failed to stat file " ++ f.path))
  | some d =>
    match d.content with
    | .bytes bs =>
      .ok { name := f.relativePath, mode := d.mode, mtime := d.mtime, content := .bytes bs }
    | _ => .error (.msg ("failed to open file " ++ f.path))

/-- The file loop of `Service.Pack`: write each file to the tar stream in
order, wrapping a failure as `ArchiveError{pack, file.Path, cause}`. -/
def buildEntries (fs : FS) : List EnvFile → Except GErr (List TarEntry)
  | [] => .ok []
  | f :: rest =>
    match writeFileToTar fs f with
    | .error e =>
      .error (.archiveError "pack" f.path (.wrap "failed to write file to archive" e))
    | .ok entry =>
      match buildEntries fs rest with
      | .error e => .error e
      | .ok es => .ok (entry :: es)

/-- `Σ files[i].size`, as computed at the top of `Service.Pack`. -/
def totalSizeOf (files : List EnvFile) : Int := files.foldl (fun acc f => acc + f.size) 0

/-- `Service.writeMetadata`: the first tar entry, named `metadata.json`,
mode `0o600`, carrying the marshalled archive metadata (zero mtime, as
the Go header leaves `ModTime` unset). -/
def metadataEntry (a : ArchiveMeta) : TarEntry :=
  { name := "metadata.json", mode := 0o600, mtime := 0, content := .meta a }

/-- Outcome of the final `os.WriteFile` in `Service.Pack`.  `os.WriteFile`
opens with `O_CREATE|O_TRUNC` and then writes; when the write itself
fails (disk full, I/O error) it reports the error but leaves the prefix
already written at the path. -/
inductive WriteOutcome where
  | success
  | failPartial
  deriving DecidableEq, Repr

/-- `Service.Pack`: reject an empty file list, build the tar stream
(metadata first, then the files in order), encrypt it, and write the
ciphertext to the output path with mode `0o600`.  The temporary tar
spool file lives outside the modelled tree and is removed on every path
by the deferred cleanup, so it does not appear here.  `now` is the
wall-clock time (`time.Now`), `wr` the outcome of the final write. -/
def Pack (fs : FS) (opts : PackOptions) (now : Int) (wr : WriteOutcome) :
    FS × Option GErr :=
  if opts.files = [] then
    (fs, some (.archiveError "pack" opts.outputPath (.msg "no files to pack")))
  else
    match buildEntries fs opts.files with
    | .error e => (fs, some e)
    | .ok es =>
      let meta : ArchiveMeta :=
        { createdAt := now, version := "1.0.0", description := opts.description,
          files := opts.files, totalSize := totalSizeOf opts.files }
      match encrypt (metadataEntry meta :: es) opts.password with
      | .error e =>
        (fs, some (.archiveError "pack" opts.outputPath (.wrap "failed to encrypt data" e)))
      | .ok c =>
        match wr with
        | .success =>
          (fsWrite fs opts.outputPath { content := .enc c, mode := 0o600, mtime := now }, none)
        | .failPartial =>
          (fsWrite fs opts.outputPath { content := .truncEnc c, mode := 0o600, mtime := now },
           some (.archiveError "pack" opts.outputPath
             (.wrap "failed to write encrypted file" (.msg "short write"))))

/-- `Service.List`: read and decrypt the archive, require the first entry
to be `metadata.json`, and return the unmarshalled metadata.  Never
touches the filesystem. -/
def ListArchive (fs : FS) (archivePath password : String) : Except GErr ArchiveMeta :=
  match fsLookup fs archivePath with
  | none =>
    .error (.archiveError "list" archivePath
      (.wrap "failed to read archive" (.msg "file does not exist")))
  | some d =>
    match decrypt d.content password with
    | .error e =>
      .error (.archiveError "list" archivePath (.wrap "failed to decrypt archive" e))
    | .ok entries =>
      match entries with
      | [] =>
        .error (.archiveError "list" archivePath
          (.wrap "failed to read metadata" (.msg "EOF")))
      | e :: _ =>
        if e.name = "metadata.json" then
          match e.content with
          | .meta a => .ok a
          | .bytes _ =>
            .error (.archiveError "list" archivePath (.msg "failed to unmarshal metadata"))
        else
          .error (.archiveError "list" archivePath (.msg "invalid archive format: missing metadata"))

/-! ## Scanner (`internal/scanner/scanner.go`) -/

mutual

/-- A node of the scanned tree: a regular file (name, size, mtime,
contents), a symbolic link (name, link size and mtime as `os.Lstat`
reports them, and the target's contents when the link resolves), or a
directory. -/
inductive FNode where
  | file (name : String) (size : Int) (mtime : Int) (content : List Nat)
  | symlink (name : String) (size : Int) (mtime : Int) (target : Option (List Nat))
  | dir (name : String) (children : FForest)

/-- Children of a directory, in the name-sorted order in which
`filepath.Walk` visits them. -/
inductive FForest where
  | nil
  | cons (n : FNode) (rest : FForest)

end

/-- The compiled scan context (`scanContext`).  Compiled regular
expressions are modelled as boolean matchers, which is all
`regexp.MatchString` contributes. -/
structure ScanCtx where
  root : String
  maxDepth : Nat
  maxFileSize : Int
  include' : List (String → Bool)
  exclude : List (String → Bool)
  envExclude : List (String → Bool)

/-- `matchesAny` of scanner.go. -/
def matchesAny (name : String) (patterns : List (String → Bool)) : Bool :=
  patterns.any (fun p => p name)

/-- `exceedsDepth` of scanner.go: separator count of the relative path
against the depth ceiling. -/
def exceedsDepth (relPath : String) (maxDepth : Nat) : Bool :=
  decide (countSep relPath > maxDepth)

/-- `scanContext.shouldSkipDir`: the directory path with a trailing
separator against the exclude patterns. -/
def shouldSkipDir (sc : ScanCtx) (path : String) : Bool :=
  matchesAny (path ++ "/") sc.exclude

/-- `scanContext.shouldInclude`: size ceiling, at least one include
pattern, no env-exclude pattern; applied to the base name. -/
def shouldInclude (sc : ScanCtx) (name : String) (size : Int) : Bool :=
  if size > sc.maxFileSize then false
  else if ¬ matchesAny name sc.include' then false
  else if matchesAny name sc.envExclude then false
  else true

/-- Relative path of a child entry, as `filepath.Rel(root, path)` yields
it along the walk. -/
def childRel (parentRel name : String) : String :=
  if parentRel = "." then name else parentRel ++ "/" ++ name

/-- Full path of the entry at relative path `rel`. -/
def pathOf (sc : ScanCtx) (rel : String) : String :=
  if rel = "." then sc.root else sc.root ++ "/" ++ rel

/-- Name of a node. -/
def FNode.name : FNode → String
  | .file n _ _ _ => n
  | .symlink n _ _ _ => n
  | .dir n _ => n

mutual

/-- The walk callback of `Service.ScanFiles` applied to one visited node,
plus the recursion of `filepath.Walk` into directories.  `filepath.Walk`
uses `Lstat`, so a symbolic link is visited as a non-directory entry with
the link's own size; the callback has no symlink test, so a link that
passes `shouldInclude` is checksummed (following the link: `os.Open`
resolves it) and emitted like a regular file, and a broken link aborts
the scan with the checksum error. -/
def walkNode (sc : ScanCtx) (hash : List Nat → String) (rel : String) :
    FNode → Except GErr (List EnvFile)
  | .file name size mtime content =>
    if exceedsDepth rel sc.maxDepth then .ok []
    else if shouldInclude sc name size then
      .ok [{ path := pathOf sc rel, relativePath := rel, size := size,
             modTime := mtime, checksum := hash content }]
    else .ok []
  | .symlink name size mtime target =>
    if exceedsDepth rel sc.maxDepth then .ok []
    else if shouldInclude sc name size then
      match target with
      | some bs =>
        .ok [{ path := pathOf sc rel, relativePath := rel, size := size,
               modTime := mtime, checksum := hash bs }]
      | none =>
        .error (.msg ("failed to calculate checksum: " ++ pathOf sc rel))
    else .ok []
  | .dir _ children =>
    if exceedsDepth rel sc.maxDepth then .ok []
    else if shouldSkipDir sc (pathOf sc rel) then .ok []
    else walkForest sc hash rel children

/-- Visit the children of a directory in order, concatenating the
emitted files; an error aborts the whole walk. -/
def walkForest (sc : ScanCtx) (hash : List Nat → String) (parentRel : String) :
    FForest → Except GErr (List EnvFile)
  | .nil => .ok []
  | .cons n rest => do
    let out1 ← walkNode sc hash (childRel parentRel n.name) n
    let out2 ← walkForest sc hash parentRel rest
    .ok (out1 ++ out2)

end

/-- `Service.ScanFiles` over a tree rooted at `sc.root`: `filepath.Walk`
visits the root itself first (relative path `"."`), then its children.
Pattern compilation is abstracted into the already-compiled context. -/
def scanFilesModel (sc : ScanCtx) (hash : List Nat → String) (forest : FForest) :
    Except GErr (List EnvFile) :=
  if exceedsDepth "." sc.maxDepth then .ok []
  else if shouldSkipDir sc sc.root then .ok []
  else walkForest sc hash "." forest

/-! ## Helper lemmas about the filesystem model -/

theorem fsLookup_fsWrite (fs : FS) (a p : String) (d : FileData) :
    fsLookup (fsWrite fs a d) p = if a = p then some d else fsLookup fs p := rfl

theorem fsLookup_fsErase (fs : FS) (a p : String) :
    fsLookup (fsErase fs a) p = if p = a then none else fsLookup fs p := by
  induction fs with
  | nil => simp [fsErase, fsLookup]
  | cons kv rest ih =>
    obtain ⟨k, v⟩ := kv
    by_cases hk : k = a <;> by_cases hkp : k = p <;> by_cases hpa : p = a <;>
      simp_all [fsErase, fsLookup]

/-! ## C7: Pack rejects an empty file list without touching the filesystem -/

/-- C7.  For every `PackOptions` whose files list is empty, `Pack` fails
with the `ArchiveError` carrying "no files to pack" and returns the
filesystem unchanged: no temporary file, no output file (the Go code
returns before `os.CreateTemp`). -/
theorem pack_empty_files_rejected (fs : FS) (opts : PackOptions) (now : Int)
    (wr : WriteOutcome) (h : opts.files = []) :
    Pack fs opts now wr =
      (fs, some (.archiveError "pack" opts.outputPath (.msg "no files to pack"))) := by
  simp [Pack, h]

/-- Witness for C7 at a concrete empty pack request. -/
theorem pack_empty_files_rejected_witness :
    Pack [] { files := [], outputPath := "/o.enc", password := "p", description := "" }
        0 .success
      = ([], some (.archiveError "pack" "/o.enc" (.msg "no files to pack"))) :=
  pack_empty_files_rejected []
    { files := [], outputPath := "/o.enc", password := "p", description := "" }
    0 .success rfl

/-! ## C10: the validator rejects any name containing the substring ".." -/

/-- A minimal metadata record for hand-built archives. -/
def metaTiny : ArchiveMeta :=
  { createdAt := 0, version := "1.0.0", description := "", files := [], totalSize := 0 }

/-- An archive whose second entry is the single-segment name `foo..bar`. -/
def fsDotdot : FS :=
  [("/a/x.enc",
    { content := .enc
        { payload :=
            [metadataEntry metaTiny,
             { name := "foo..bar", mode := 0o600, mtime := 1, content := .bytes [7] }],
          password := "pw" },
      mode := 0o600, mtime := 0 })]

/-- Unpack options for the `foo..bar` archive. -/
def uoptsDotdot : UnpackOptions :=
  { archivePath := "/a/x.enc", password := "pw", targetDir := "/out",
    overwrite := false, backup := false }

/-- C10.  `safePath` rejects every entry name containing the two-character
substring `..` anywhere — not only `..` path segments — and consequently
an archive entry named `foo..bar` (a legitimate single-segment file name)
makes `Unpack` abort with the unsafe-path error, writing nothing. -/
theorem safePath_rejects_dotdot_substring (name cwd base : String)
    (h : strContainsSub name ".." = true) :
    safePath cwd name base = .error (.msg ("unsafe path detected: " ++ name)) ∧
    Unpack "/" fsDotdot uoptsDotdot =
      { fs := fsDotdot, logs := [],
        err := some (.archiveError "unpack" "foo..bar"
          (.msg "unsafe path detected: foo..bar")) } := by
  constructor
  · simp [safePath, h]
  · rfl

/-- Witness for C10 at the name `foo..bar`. -/
theorem safePath_rejects_dotdot_substring_witness :
    strContainsSub "foo..bar" ".." = true ∧
    (safePath "/" "foo..bar" "/out" =
        .error (.msg ("unsafe path detected: " ++ "foo..bar")) ∧
      Unpack "/" fsDotdot uoptsDotdot =
        { fs := fsDotdot, logs := [],
          err := some (.archiveError "unpack" "foo..bar"
            (.msg "unsafe path detected: foo..bar")) }) :=
  ⟨by decide, safePath_rejects_dotdot_substring "foo..bar" "/" "/out" (by decide)⟩

/-! ## C9: with overwrite off, an existing target is a logged, non-fatal skip -/

/-- C9.  During unpack with `overwrite = false`, an entry whose resolved
target already exists is reported as a skip line, leaves the existing
file untouched, produces no error, and the loop continues with the
remaining entries exactly as if the entry were absent. -/
theorem unpack_skips_existing_without_overwrite (cwd : String) (fs : FS) (e : TarEntry)
    (rest : List TarEntry) (opts : UnpackOptions) (t : String) (d : FileData)
    (hov : opts.overwrite = false)
    (hname : e.name ≠ "metadata.json")
    (hsafe : safePath cwd e.name opts.targetDir = .ok t)
    (hex : fsLookup fs t = some d) :
    extractEntry cwd fs e opts =
      { fs := fs, logs := ["Skipping existing file: " ++ t], err := none } ∧
    unpackEntries cwd fs (e :: rest) opts =
      { fs := (unpackEntries cwd fs rest opts).fs,
        logs := ("Skipping existing file: " ++ t) :: (unpackEntries cwd fs rest opts).logs,
        err := (unpackEntries cwd fs rest opts).err } := by
  have h1 : extractEntry cwd fs e opts =
      { fs := fs, logs := ["Skipping existing file: " ++ t], err := none } := by
    simp [extractEntry, hname, hsafe, handleExisting, hex, hov]
  exact ⟨h1, by simp [unpackEntries, h1]⟩

/-- Witness for C9: a target that already exists is skipped. -/
theorem unpack_skips_existing_without_overwrite_witness :
    extractEntry "/" [("/out/.env", { content := .bytes [9], mode := 0o600, mtime := 2 })]
        { name := ".env", mode := 0o644, mtime := 3, content := .bytes [1] }
        { archivePath := "/a.enc", password := "pw", targetDir := "/out",
          overwrite := false, backup := false } =
      { fs := [("/out/.env", { content := .bytes [9], mode := 0o600, mtime := 2 })],
        logs := ["Skipping existing file: " ++ "/out/.env"], err := none } ∧
    unpackEntries "/" [("/out/.env", { content := .bytes [9], mode := 0o600, mtime := 2 })]
        [{ name := ".env", mode := 0o644, mtime := 3, content := .bytes [1] }]
        { archivePath := "/a.enc", password := "pw", targetDir := "/out",
          overwrite := false, backup := false } =
      { fs := (unpackEntries "/"
          [("/out/.env", { content := .bytes [9], mode := 0o600, mtime := 2 })] []
          { archivePath := "/a.enc", password := "pw", targetDir := "/out",
            overwrite := false, backup := false }).fs,
        logs := ("Skipping existing file: " ++ "/out/.env") :: (unpackEntries "/"
          [("/out/.env", { content := .bytes [9], mode := 0o600, mtime := 2 })] []
          { archivePath := "/a.enc", password := "pw", targetDir := "/out",
            overwrite := false, backup := false }).logs,
        err := (unpackEntries "/"
          [("/out/.env", { content := .bytes [9], mode := 0o600, mtime := 2 })] []
          { archivePath := "/a.enc", password := "pw", targetDir := "/out",
            overwrite := false, backup := false }).err } :=
  unpack_skips_existing_without_overwrite "/" _ _ [] _ "/out/.env" _
    rfl (by decide) (by decide) rfl

/-! ## C8: depth ceiling of the scanner, with the boundary scenario -/

/-- The scan context of the depth-boundary scenario: depth ceiling 3 and
an include matcher for the name `.env`. -/
def scE : ScanCtx :=
  { root := "/r", maxDepth := 3, maxFileSize := 100,
    include' := [fun n => n = ".env"], exclude := [], envExclude := [] }

/-- A placeholder checksum function for concrete scans. -/
def hashE : List Nat → String := fun _ => "h"

/-- The depth-boundary tree: `.env` at depths 0 through 4. -/
def forestE : FForest :=
  .cons (.file ".env" 1 0 [0])
    (.cons (.dir "a"
      (.cons (.file ".env" 1 0 [0])
        (.cons (.dir "b"
          (.cons (.file ".env" 1 0 [0])
            (.cons (.dir "c"
              (.cons (.file ".env" 1 0 [0])
                (.cons (.dir "d"
                  (.cons (.file ".env" 1 0 [0]) .nil)) .nil))) .nil))) .nil))) .nil)

/-- C8.  Any visited entry whose relative path is deeper than the ceiling
is skipped — a file yields nothing and a directory is pruned with its
whole subtree — and over the boundary tree with `max_depth = 3` the scan
returns exactly the four files at depths 0..3. -/
theorem scan_depth_skip_and_boundary (sc : ScanCtx) (hash : List Nat → String)
    (rel : String) (n : FNode) (h : countSep rel > sc.maxDepth) :
    walkNode sc hash rel n = .ok [] ∧
    scanFilesModel scE hashE forestE = .ok
      [ { path := "/r/.env", relativePath := ".env", size := 1, modTime := 0, checksum := "h" },
        { path := "/r/a/.env", relativePath := "a/.env", size := 1, modTime := 0,
          checksum := "h" },
        { path := "/r/a/b/.env", relativePath := "a/b/.env", size := 1, modTime := 0,
          checksum := "h" },
        { path := "/r/a/b/c/.env", relativePath := "a/b/c/.env", size := 1, modTime := 0,
          checksum := "h" } ] := by
  have hx : exceedsDepth rel sc.maxDepth = true := by simp [exceedsDepth, h]
  exact ⟨by cases n <;> simp [walkNode, hx], rfl⟩

/-- Witness for C8 at the depth-4 entry of the boundary tree. -/
theorem scan_depth_skip_and_boundary_witness :
    walkNode scE hashE "a/b/c/d/.env" (.file ".env" 1 0 [0]) = .ok [] ∧
    scanFilesModel scE hashE forestE = .ok
      [ { path := "/r/.env", relativePath := ".env", size := 1, modTime := 0, checksum := "h" },
        { path := "/r/a/.env", relativePath := "a/.env", size := 1, modTime := 0,
          checksum := "h" },
        { path := "/r/a/b/.env", relativePath := "a/b/.env", size := 1, modTime := 0,
          checksum := "h" },
        { path := "/r/a/b/c/.env", relativePath := "a/b/c/.env", size := 1, modTime := 0,
          checksum := "h" } ] :=
  scan_depth_skip_and_boundary scE hashE "a/b/c/d/.env" (.file ".env" 1 0 [0]) (by decide)

/-! ## C5: the walk has no symlink test, so a matching symlink is emitted -/

/-- Scan context mirroring the repository's symlink fixture: include
matcher for names beginning with `.env`. -/
def scS : ScanCtx :=
  { root := "/r", maxDepth := 3, maxFileSize := 100,
    include' := [fun n => strStarts n ".env"], exclude := [], envExclude := [] }

/-- The symlink fixture tree: a symlink `.env` pointing at the regular
file `.env.real` (the walk visits `.env` first, in name order). -/
def forestS : FForest :=
  .cons (.symlink ".env" 9 5 (some [1, 2]))
    (.cons (.file ".env.real" 2 4 [1, 2]) .nil)

/-- C5 evaluation.  `ScanFiles` has no symlink check: over the symlink
fixture the scan result CONTAINS the symbolic link `.env` (with the
link's own size and the target's checksum), contradicting the documented
behaviour that symlinks are skipped silently and never appear. -/
theorem scanFiles_emits_symlink :
    scanFilesModel scS hashE forestS = .ok
      [ { path := "/r/.env", relativePath := ".env", size := 9, modTime := 5,
          checksum := "h" },
        { path := "/r/.env.real", relativePath := ".env.real", size := 2, modTime := 4,
          checksum := "h" } ] := rfl

/-! ## C6: a failed final write leaves a partial output file -/

/-- The single file packed in the write-failure scenario. -/
def fileC6 : EnvFile :=
  { path := "/r/.env", relativePath := ".env", size := 2, modTime := 7, checksum := "c" }

/-- Filesystem before the failing pack: the source file exists, the
output path does not. -/
def fsC6 : FS := [("/r/.env", { content := .bytes [1, 2], mode := 0o644, mtime := 7 })]

/-- Pack options of the write-failure scenario. -/
def optsC6 : PackOptions :=
  { files := [fileC6], outputPath := "/proj/out.enc", password := "pw", description := "" }

/-- The complete ciphertext the failing pack was writing. -/
def cipherC6 : Cipher :=
  { payload :=
      [metadataEntry
        { createdAt := 9, version := "1.0.0", description := "", files := [fileC6],
          totalSize := 2 },
       { name := ".env", mode := 0o644, mtime := 7, content := .bytes [1, 2] }],
    password := "pw" }

/-- C6 evaluation.  When the final `os.WriteFile` of `Pack` fails midway
(`os.WriteFile` opens with `O_CREATE|O_TRUNC` and does not remove the
file on a failed write), `Pack` reports the write error but a NEW file
holding a truncated ciphertext — not the complete one — is left at the
output path, contradicting the requirement that no partial output file
survives a failure. -/
theorem pack_write_failure_leaves_partial :
    fsLookup fsC6 "/proj/out.enc" = none ∧
    Pack fsC6 optsC6 9 .failPartial =
      (fsWrite fsC6 "/proj/out.enc"
        { content := .truncEnc cipherC6, mode := 0o600, mtime := 9 },
       some (.archiveError "pack" "/proj/out.enc"
         (.wrap "failed to write encrypted file" (.msg "short write")))) ∧
    fsLookup (Pack fsC6 optsC6 9 .failPartial).1 "/proj/out.enc" =
      some { content := .truncEnc cipherC6, mode := 0o600, mtime := 9 } ∧
    FC.truncEnc cipherC6 ≠ FC.enc cipherC6 :=
  ⟨rfl, rfl, rfl, by decide⟩

/-! ## C2: wrong password — both operations fail, wrapped as ArchiveError -/

/-- An archive encrypted under password `pw`. -/
def fsC2 : FS :=
  [("/a/x.enc",
    { content := .enc { payload := [], password := "pw" }, mode := 0o600, mtime := 0 })]

/-- Unpack options using the wrong password. -/
def uoptsC2 : UnpackOptions :=
  { archivePath := "/a/x.enc", password := "wrong", targetDir := "/out",
    overwrite := false, backup := false }

/-- C2 counterexample.  With a wrong password, `List` and `Unpack` fail —
but the error value surfaced to the caller is a `types.ArchiveError`
wrapping the authentication failure, not the `CryptoError{Auth}` value
itself. -/
theorem wrong_password_error_is_archive_error :
    ListArchive fsC2 "/a/x.enc" "wrong" =
      .error (.archiveError "list" "/a/x.enc"
        (.wrap "failed to decrypt archive" .cryptoAuth)) ∧
    (GErr.archiveError "list" "/a/x.enc"
        (.wrap "failed to decrypt archive" .cryptoAuth)) ≠ GErr.cryptoAuth ∧
    Unpack "/" fsC2 uoptsC2 =
      { fs := fsC2, logs := [],
        err := some (.archiveError "unpack" "/a/x.enc"
          (.wrap "failed to decrypt archive" .cryptoAuth)) } ∧
    (GErr.archiveError "unpack" "/a/x.enc"
        (.wrap "failed to decrypt archive" .cryptoAuth)) ≠ GErr.cryptoAuth :=
  ⟨rfl, by decide, rfl, by decide⟩

/-- C2 as the code has it.  For an archive encrypted under `pw` and any
non-empty password `pw2 ≠ pw`, `List` and `Unpack` both fail; each
surfaces an `ArchiveError` for its operation whose cause chain is the
authentication failure `CryptoError{Auth}`, and `Unpack` writes
nothing. -/
theorem list_unpack_wrong_password_wrapped_auth
    (cwd path pw pw2 : String) (fs : FS) (payload : List TarEntry) (mode : Nat)
    (mtime : Int) (uopts : UnpackOptions)
    (hfs : fsLookup fs path =
      some { content := .enc { payload := payload, password := pw },
             mode := mode, mtime := mtime })
    (hne : pw2 ≠ pw) (hnz : pw2 ≠ "")
    (hap : uopts.archivePath = path) (hpw : uopts.password = pw2) :
    ListArchive fs path pw2 =
      .error (.archiveError "list" path (.wrap "failed to decrypt archive" .cryptoAuth)) ∧
    Unpack cwd fs uopts =
      { fs := fs, logs := [],
        err := some (.archiveError "unpack" path
          (.wrap "failed to decrypt archive" .cryptoAuth)) } := by
  constructor
  · simp [ListArchive, hfs, decrypt, hnz, hne]
  · simp [Unpack, hap, hpw, hfs, decrypt, hnz, hne]

/-- Witness for C2 (amended) at a concrete archive and wrong password. -/
theorem list_unpack_wrong_password_wrapped_auth_witness :
    ListArchive fsC2 "/a/x.enc" "wrong" =
      .error (.archiveError "list" "/a/x.enc"
        (.wrap "failed to decrypt archive" .cryptoAuth)) ∧
    Unpack "/" fsC2 uoptsC2 =
      { fs := fsC2, logs := [],
        err := some (.archiveError "unpack" "/a/x.enc"
          (.wrap "failed to decrypt archive" .cryptoAuth)) } :=
  list_unpack_wrong_password_wrapped_auth "/" "/a/x.enc" "pw" "wrong" fsC2 [] 0o600 0
    uoptsC2 rfl (by decide) (by decide) rfl rfl

/-! ## C4: permission floor of extracted files -/

theorem safeMode_and_0o177 (m : Nat) : safeMode m &&& 0o177 = 0 := by
  simp only [safeMode]
  split
  · decide
  · rw [Nat.and_assoc, (by decide : (0o600 &&& 0o177 : Nat) = 0), Nat.and_zero]

theorem extractFile_lookup (fs : FS) (t : String) (e : TarEntry) (p : String)
    (d : FileData) (h : fsLookup (extractFile fs t e) p = some d) :
    (∃ q, fsLookup fs q = some d) ∨ d.mode = safeMode e.mode := by
  rw [extractFile, fsLookup_fsWrite] at h
  by_cases htp : t = p
  · rw [if_pos htp] at h
    injection h with h2
    exact .inr (by rw [← h2])
  · rw [if_neg htp] at h
    exact .inl ⟨p, h⟩

theorem fsRename_lookup (fs : FS) (src dst p : String) (d : FileData)
    (h : fsLookup (fsRename fs src dst) p = some d) :
    ∃ q, fsLookup fs q = some d := by
  unfold fsRename at h
  cases hl : fsLookup fs src with
  | none => rw [hl] at h; exact ⟨p, h⟩
  | some d0 =>
    rw [hl, fsLookup_fsWrite] at h
    by_cases hdp : dst = p
    · rw [if_pos hdp] at h
      injection h with h2
      exact ⟨src, by rw [hl, h2]⟩
    · rw [if_neg hdp, fsLookup_fsErase] at h
      by_cases hps : p = src
      · rw [if_pos hps] at h; cases h
      · rw [if_neg hps] at h; exact ⟨p, h⟩

theorem handleExisting_fs (fs : FS) (path : String) (ow bk : Bool) :
    (handleExisting fs path ow bk).2.2 = fs ∨
    (handleExisting fs path ow bk).2.2 = fsRename fs path (path ++ ".backup") := by
  unfold handleExisting
  cases fsLookup fs path with
  | none => exact .inl rfl
  | some d0 =>
    by_cases how : ow = false
    · simp [how]
    · cases hbk : bk <;> simp [how, hbk]

theorem extractEntry_mode (cwd : String) (fs : FS) (e : TarEntry) (opts : UnpackOptions)
    (p : String) (d : FileData)
    (h : fsLookup (extractEntry cwd fs e opts).fs p = some d) :
    (∃ q, fsLookup fs q = some d) ∨ d.mode = safeMode e.mode := by
  by_cases hm : e.name = "metadata.json"
  · rw [extractEntry, if_pos hm] at h
    exact .inl ⟨p, h⟩
  · rw [extractEntry, if_neg hm] at h
    cases hsp : safePath cwd e.name opts.targetDir with
    | error pe => simp only [hsp] at h; exact .inl ⟨p, h⟩
    | ok t =>
      simp only [hsp] at h
      have hfs0 := handleExisting_fs fs t opts.overwrite opts.backup
      by_cases hskip : (handleExisting fs t opts.overwrite opts.backup).1
      · simp only [hskip, if_true] at h
        rcases hfs0 with h0 | h0
        · rw [h0] at h; exact .inl ⟨p, h⟩
        · rw [h0] at h; exact .inl (fsRename_lookup fs t _ p d h)
      · simp only [hskip, if_false] at h
        rcases extractFile_lookup _ t e p d h with ⟨q, hq⟩ | hmode
        · rcases hfs0 with h0 | h0
          · rw [h0] at hq; exact .inl ⟨q, hq⟩
          · rw [h0] at hq; exact .inl (fsRename_lookup fs t _ q d hq)
        · exact .inr hmode

theorem unpackEntries_mode (cwd : String) (opts : UnpackOptions) :
    ∀ (es : List TarEntry) (fs : FS) (p : String) (d : FileData),
      fsLookup (unpackEntries cwd fs es opts).fs p = some d →
      (∃ q, fsLookup fs q = some d) ∨ ∃ e, e ∈ es ∧ d.mode = safeMode e.mode := by
  intro es
  induction es with
  | nil => intro fs p d h; exact .inl ⟨p, h⟩
  | cons e rest ih =>
    intro fs p d h
    simp only [unpackEntries] at h
    cases herr : (extractEntry cwd fs e opts).err with
    | some err =>
      simp only [herr] at h
      rcases extractEntry_mode cwd fs e opts p d h with h1 | h1
      · exact .inl h1
      · exact .inr ⟨e, List.mem_cons_self e rest, h1⟩
    | none =>
      simp only [herr] at h
      rcases ih (extractEntry cwd fs e opts).fs p d h with ⟨q, hq⟩ | ⟨e2, he2, hm2⟩
      · rcases extractEntry_mode cwd fs e opts q d hq with h1 | h1
        · exact .inl h1
        · exact .inr ⟨e, List.mem_cons_self e rest, h1⟩
      · exact .inr ⟨e2, List.mem_cons_of_mem _ he2, hm2⟩

/-- C4.  The mode of every file written by the unpack loop is
`safeMode` of its entry's mode: `safeMode` strips all group and world
bits (`mode &&& 0o177 = 0`), equals `(entry_mode & 0o777) & 0o600` with a
default of `0o600` when that masking is zero, and any file present after
`unpackEntries` either carries data already present somewhere in the
input filesystem (untouched or renamed to a `.backup` name) or has mode
`safeMode e.mode` for one of the entries. -/
theorem unpack_permission_floor :
    (∀ m : Nat, safeMode m &&& 0o177 = 0) ∧
    (∀ m : Nat, safeMode m =
        if (m &&& 0o777) &&& 0o600 = 0 then 0o600 else (m &&& 0o777) &&& 0o600) ∧
    (∀ (cwd : String) (fs : FS) (es : List TarEntry) (opts : UnpackOptions)
        (p : String) (d : FileData),
      fsLookup (unpackEntries cwd fs es opts).fs p = some d →
      (∃ q, fsLookup fs q = some d) ∨ ∃ e, e ∈ es ∧ d.mode = safeMode e.mode) :=
  ⟨safeMode_and_0o177, fun _ => rfl,
   fun cwd fs es opts => unpackEntries_mode cwd opts es fs⟩

/-- Unpack options shared by concrete permission-floor runs. -/
def uoptsW : UnpackOptions :=
  { archivePath := "/x.enc", password := "pw", targetDir := "/out",
    overwrite := false, backup := false }

/-- Witness for C4 at a concrete extraction (entry mode `0o644` becomes
`0o600`). -/
theorem unpack_permission_floor_witness :
    fsLookup (unpackEntries "/" []
        [{ name := ".env", mode := 0o644, mtime := 3, content := .bytes [1] }] uoptsW).fs
        "/out/.env" =
      some { content := .bytes [1], mode := 0o600, mtime := 3 } ∧
    ((∃ q, fsLookup ([] : FS) q =
        some ({ content := .bytes [1], mode := 0o600, mtime := 3 } : FileData)) ∨
      ∃ e, e ∈ [({ name := ".env", mode := 0o644, mtime := 3,
                   content := .bytes [1] } : TarEntry)] ∧
        ({ content := .bytes [1], mode := 0o600, mtime := 3 } : FileData).mode =
          safeMode e.mode) :=
  ⟨rfl, unpack_permission_floor.2.2 "/" []
    [{ name := ".env", mode := 0o644, mtime := 3, content := .bytes [1] }] uoptsW
    "/out/.env" { content := .bytes [1], mode := 0o600, mtime := 3 } rfl⟩

/-! ## C3: an unsafe entry aborts the unpack at that entry -/

/-- A safe entry extracted before the offender. -/
def goodE : TarEntry :=
  { name := "good.txt", mode := 0o644, mtime := 5, content := .bytes [1, 2, 3] }

/-- The offending traversal entry. -/
def badE : TarEntry :=
  { name := "../evil", mode := 0o644, mtime := 5, content := .bytes [9] }

/-- An archive with a safe entry followed by a traversal entry. -/
def fsC3 : FS :=
  [("/a/x.enc",
    { content := .enc { payload := [metadataEntry metaTiny, goodE, badE], password := "pw" },
      mode := 0o600, mtime := 0 })]

/-- Unpack options for the traversal archive. -/
def uoptsC3 : UnpackOptions :=
  { archivePath := "/a/x.enc", password := "pw", targetDir := "/out",
    overwrite := false, backup := false }

/-- C3 counterexample.  Unpacking an archive whose entries are
`[metadata.json, good.txt, ../evil]` fails with the unsafe-path
`ArchiveError` — but the entry PRECEDING the offender has already been
written into the target directory, so the unpack does not write "no
files". -/
theorem unpack_unsafe_path_preceding_entry_written :
    (Unpack "/" fsC3 uoptsC3).err =
      some (.archiveError "unpack" "../evil" (.msg "unsafe path detected: ../evil")) ∧
    fsLookup (Unpack "/" fsC3 uoptsC3).fs "/out/good.txt" =
      some { content := .bytes [1, 2, 3], mode := 0o600, mtime := 5 } ∧
    fsLookup fsC3 "/out/good.txt" = none :=
  ⟨rfl, rfl, rfl⟩

/-- C3 as the code has it.  If the entries before `bad` extract without
error and `bad`'s name fails the path-safety validation, the whole loop
stops at `bad` with `ArchiveError{unpack, bad.name, UnsafePath}`: the
offending entry and everything after it are not written, while the
filesystem and log effects are exactly those of the preceding entries. -/
theorem unpack_unsafe_path_aborts_at_offender
    (cwd : String) (fs : FS) (pre : List TarEntry) (bad : TarEntry)
    (rest : List TarEntry) (opts : UnpackOptions) (e1 : GErr)
    (hproc : (unpackEntries cwd fs pre opts).err = none)
    (hname : bad.name ≠ "metadata.json")
    (hbad : safePath cwd bad.name opts.targetDir = .error e1) :
    unpackEntries cwd fs (pre ++ bad :: rest) opts =
      { fs := (unpackEntries cwd fs pre opts).fs,
        logs := (unpackEntries cwd fs pre opts).logs,
        err := some (.archiveError "unpack" bad.name e1) } := by
  induction pre generalizing fs with
  | nil =>
    have hext : extractEntry cwd fs bad opts = { fs := fs, logs := [], err := some e1 } := by
      simp [extractEntry, hname, hbad]
    simp [unpackEntries, hext]
  | cons p pre ih =>
    cases herr : (extractEntry cwd fs p opts).err with
    | some err =>
      have hbadstep : (unpackEntries cwd fs (p :: pre) opts).err =
          some (.archiveError "unpack" p.name err) := by
        simp only [unpackEntries, herr]
      rw [hbadstep] at hproc
      cases hproc
    | none =>
      have hstep : ∀ (es2 : List TarEntry),
          unpackEntries cwd fs (p :: es2) opts =
            { fs := (unpackEntries cwd (extractEntry cwd fs p opts).fs es2 opts).fs,
              logs := (extractEntry cwd fs p opts).logs ++
                (unpackEntries cwd (extractEntry cwd fs p opts).fs es2 opts).logs,
              err := (unpackEntries cwd (extractEntry cwd fs p opts).fs es2 opts).err } := by
        intro es2
        simp only [unpackEntries, herr]
      have hproc2 : (unpackEntries cwd (extractEntry cwd fs p opts).fs pre opts).err = none := by
        rw [hstep pre] at hproc
        exact hproc
      rw [List.cons_append, hstep (pre ++ bad :: rest), hstep pre, ih _ hproc2]

/-- Witness for C3 (amended): concrete prefix, offender, and result. -/
theorem unpack_unsafe_path_aborts_at_offender_witness :
    (unpackEntries "/" [] [goodE] uoptsC3).err = none ∧
    unpackEntries "/" [] ([goodE] ++ badE :: []) uoptsC3 =
      { fs := (unpackEntries "/" [] [goodE] uoptsC3).fs,
        logs := (unpackEntries "/" [] [goodE] uoptsC3).logs,
        err := some (.archiveError "unpack" badE.name
          (.msg "unsafe path detected: ../evil")) } :=
  ⟨rfl, unpack_unsafe_path_aborts_at_offender "/" [] [goodE] badE [] uoptsC3
    (.msg "unsafe path detected: ../evil") rfl (by decide) rfl⟩

/-! ## C1: pack/unpack round trip -/

/-- Relation between a packed file and the tar entry `writeFileToTar`
produces for it. -/
def entryMatches (fsrc : FS) (f : EnvFile) (e : TarEntry) : Prop :=
  ∃ d bs, fsLookup fsrc f.path = some d ∧ d.content = FC.bytes bs ∧
    e = { name := f.relativePath, mode := d.mode, mtime := d.mtime, content := .bytes bs }

theorem buildEntries_ok (fsrc : FS) (files : List EnvFile)
    (h : ∀ f ∈ files, ∃ d bs, fsLookup fsrc f.path = some d ∧ d.content = FC.bytes bs) :
    ∃ es, buildEntries fsrc files = .ok es ∧
      List.Forall₂ (entryMatches fsrc) files es := by
  induction files with
  | nil => exact ⟨[], rfl, List.Forall₂.nil⟩
  | cons f rest ih =>
    obtain ⟨d, bs, hl, hc⟩ := h f (List.mem_cons_self f rest)
    obtain ⟨es, hb, hf2⟩ := ih (fun g hg => h g (List.mem_cons_of_mem f hg))
    refine ⟨{ name := f.relativePath, mode := d.mode, mtime := d.mtime,
              content := .bytes bs } :: es, ?_, ?_⟩
    · simp [buildEntries, writeFileToTar, hl, hc, hb]
    · exact List.Forall₂.cons ⟨d, bs, hl, hc, rfl⟩ hf2

theorem unpackEntries_roundtrip (cwd : String) (opts : UnpackOptions) (fsrc : FS) :
    ∀ (files : List EnvFile) (es : List TarEntry) (fs0 : FS),
      List.Forall₂ (entryMatches fsrc) files es →
      (∀ f ∈ files, safePath cwd f.relativePath opts.targetDir =
          .ok (joinPath opts.targetDir f.relativePath)) →
      (∀ f ∈ files, f.relativePath ≠ "metadata.json") →
      (∀ f ∈ files, fsLookup fs0 (joinPath opts.targetDir f.relativePath) = none) →
      files.Pairwise (fun a b =>
          joinPath opts.targetDir a.relativePath ≠
            joinPath opts.targetDir b.relativePath) →
      (unpackEntries cwd fs0 es opts).err = none ∧
      (∀ p, (∀ f ∈ files, p ≠ joinPath opts.targetDir f.relativePath) →
          fsLookup (unpackEntries cwd fs0 es opts).fs p = fsLookup fs0 p) ∧
      (∀ f ∈ files, ∀ d bs, fsLookup fsrc f.path = some d → d.content = FC.bytes bs →
          fsLookup (unpackEntries cwd fs0 es opts).fs
              (joinPath opts.targetDir f.relativePath)
            = some { content := FC.bytes bs, mode := safeMode d.mode,
                     mtime := d.mtime }) := by
  intro files
  induction files with
  | nil =>
    intro es fs0 hF2 _ _ _ _
    cases hF2
    exact ⟨rfl, fun p _ => rfl, fun f hf => absurd hf (List.not_mem_nil f)⟩
  | cons f files ih =>
    intro es fs0 hF2 hsafe hmeta hfresh hdist
    cases es with
    | nil => cases hF2
    | cons e es2 =>
      have hR : entryMatches fsrc f e := by cases hF2 with | cons h1 _ => exact h1
      have hF2' : List.Forall₂ (entryMatches fsrc) files es2 := by
        cases hF2 with | cons _ h2 => exact h2
      obtain ⟨d, bs, hl, hc, he⟩ := hR
      have hd : ∀ g ∈ files, joinPath opts.targetDir f.relativePath ≠
          joinPath opts.targetDir g.relativePath := by
        cases hdist with | cons h1 _ => exact h1
      have hdist' : files.Pairwise (fun a b =>
          joinPath opts.targetDir a.relativePath ≠
            joinPath opts.targetDir b.relativePath) := by
        cases hdist with | cons _ h2 => exact h2
      have hnamef : f.relativePath ≠ "metadata.json" := hmeta f (List.mem_cons_self f files)
      have hspf : safePath cwd f.relativePath opts.targetDir =
          .ok (joinPath opts.targetDir f.relativePath) :=
        hsafe f (List.mem_cons_self f files)
      have hnew : fsLookup fs0 (joinPath opts.targetDir f.relativePath) = none :=
        hfresh f (List.mem_cons_self f files)
      have hext : extractEntry cwd fs0 e opts =
          { fs := fsWrite fs0 (joinPath opts.targetDir f.relativePath)
              { content := FC.bytes bs, mode := safeMode d.mode, mtime := d.mtime },
            logs := [], err := none } := by
        rw [he]
        simp [extractEntry, hnamef, hspf, handleExisting, hnew, extractFile, contentOfEC]
      have hfresh' : ∀ g ∈ files,
          fsLookup (fsWrite fs0 (joinPath opts.targetDir f.relativePath)
              { content := FC.bytes bs, mode := safeMode d.mode, mtime := d.mtime })
            (joinPath opts.targetDir g.relativePath) = none := by
        intro g hg
        rw [fsLookup_fsWrite, if_neg (hd g hg)]
        exact hfresh g (List.mem_cons_of_mem f hg)
      obtain ⟨ih_err, ih_unt, ih_rec⟩ :=
        ih es2 (fsWrite fs0 (joinPath opts.targetDir f.relativePath)
            { content := FC.bytes bs, mode := safeMode d.mode, mtime := d.mtime })
          hF2' (fun g hg => hsafe g (List.mem_cons_of_mem f hg))
          (fun g hg => hmeta g (List.mem_cons_of_mem f hg)) hfresh' hdist'
      have hstep : unpackEntries cwd fs0 (e :: es2) opts =
          { fs := (unpackEntries cwd (fsWrite fs0 (joinPath opts.targetDir f.relativePath)
                { content := FC.bytes bs, mode := safeMode d.mode, mtime := d.mtime })
              es2 opts).fs,
            logs := [] ++ (unpackEntries cwd
              (fsWrite fs0 (joinPath opts.targetDir f.relativePath)
                { content := FC.bytes bs, mode := safeMode d.mode, mtime := d.mtime })
              es2 opts).logs,
            err := (unpackEntries cwd
              (fsWrite fs0 (joinPath opts.targetDir f.relativePath)
                { content := FC.bytes bs, mode := safeMode d.mode, mtime := d.mtime })
              es2 opts).err } := by
        simp only [unpackEntries, hext]
      refine ⟨?_, ?_, ?_⟩
      · rw [hstep]; exact ih_err
      · intro p hp
        rw [hstep]
        have hpt : p ≠ joinPath opts.targetDir f.relativePath :=
          hp f (List.mem_cons_self f files)
        rw [ih_unt p (fun g hg => hp g (List.mem_cons_of_mem f hg))]
        rw [fsLookup_fsWrite, if_neg (fun hh => hpt hh.symm)]
      · intro g hg d2 bs2 hl2 hc2
        rcases List.mem_cons.mp hg with hgf | hgtail
        · subst hgf
          rw [hl] at hl2
          injection hl2 with hd2
          subst hd2
          rw [hc] at hc2
          injection hc2 with hbs2
          subst hbs2
          rw [hstep]
          rw [ih_unt (joinPath opts.targetDir g.relativePath) (fun g2 hg2 => hd g2 hg2)]
          rw [fsLookup_fsWrite, if_pos rfl]
        · rw [hstep]
          exact ih_rec g hgtail d2 bs2 hl2 hc2

/-- The metadata record `Service.Pack` builds for a pack request. -/
def packMeta (opts : PackOptions) (now : Int) : ArchiveMeta :=
  { createdAt := now, version := "1.0.0", description := opts.description,
    files := opts.files, totalSize := totalSizeOf opts.files }

/-- The archive file a successful pack writes: the ciphertext of the
metadata entry followed by the file entries. -/
def packedData (opts : PackOptions) (now : Int) (es : List TarEntry) : FileData :=
  { content := .enc { payload := metadataEntry (packMeta opts now) :: es,
                      password := opts.password },
    mode := 0o600, mtime := now }

/-- C1 as the code has it.  Pack then unpack with the same non-empty
password into a fresh target directory recreates every packed file —
same relative path, same byte contents, same modification time — and
touches nothing else, PROVIDED each relative path passes the path-safety
validator (resolving to `targetDir/relativePath`), none is named
`metadata.json`, the resolved targets are pairwise distinct and distinct
from the archive's output path, and each packed path holds readable
bytes. -/
theorem pack_unpack_roundtrip
    (cwd : String) (fs : FS) (opts : PackOptions) (uopts : UnpackOptions) (now : Int)
    (hne : opts.files ≠ [])
    (hpw : opts.password ≠ "")
    (hap : uopts.archivePath = opts.outputPath)
    (hupw : uopts.password = opts.password)
    (hread : ∀ f ∈ opts.files, ∃ d bs, fsLookup fs f.path = some d ∧
        d.content = FC.bytes bs)
    (hsafe : ∀ f ∈ opts.files, safePath cwd f.relativePath uopts.targetDir =
        .ok (joinPath uopts.targetDir f.relativePath))
    (hmeta : ∀ f ∈ opts.files, f.relativePath ≠ "metadata.json")
    (hfresh : ∀ f ∈ opts.files,
        fsLookup fs (joinPath uopts.targetDir f.relativePath) = none)
    (harch : ∀ f ∈ opts.files,
        joinPath uopts.targetDir f.relativePath ≠ opts.outputPath)
    (hdist : opts.files.Pairwise (fun a b =>
        joinPath uopts.targetDir a.relativePath ≠
          joinPath uopts.targetDir b.relativePath)) :
    (Pack fs opts now .success).2 = none ∧
    (Unpack cwd (Pack fs opts now .success).1 uopts).err = none ∧
    (∀ f ∈ opts.files, ∀ d bs, fsLookup fs f.path = some d → d.content = FC.bytes bs →
        fsLookup (Unpack cwd (Pack fs opts now .success).1 uopts).fs
            (joinPath uopts.targetDir f.relativePath)
          = some { content := FC.bytes bs, mode := safeMode d.mode,
                   mtime := d.mtime }) ∧
    (∀ p, (∀ f ∈ opts.files, p ≠ joinPath uopts.targetDir f.relativePath) →
        fsLookup (Unpack cwd (Pack fs opts now .success).1 uopts).fs p
          = fsLookup (Pack fs opts now .success).1 p) := by
  obtain ⟨es, hb, hF2⟩ := buildEntries_ok fs opts.files hread
  have hpack1 : (Pack fs opts now .success).1 =
      fsWrite fs opts.outputPath (packedData opts now es) := by
    simp [Pack, hne, hb, encrypt, hpw, packedData, packMeta]
  have hpack2 : (Pack fs opts now .success).2 = none := by
    simp [Pack, hne, hb, encrypt, hpw]
  have hun : Unpack cwd (Pack fs opts now .success).1 uopts =
      unpackEntries cwd (Pack fs opts now .success).1
        (metadataEntry (packMeta opts now) :: es) uopts := by
    rw [hpack1]
    simp [Unpack, hap, fsLookup_fsWrite, decrypt, hupw, hpw, packedData]
  have hskipmeta : extractEntry cwd (Pack fs opts now .success).1
      (metadataEntry (packMeta opts now)) uopts =
      { fs := (Pack fs opts now .success).1, logs := [], err := none } := by
    simp [extractEntry, metadataEntry]
  have hstep : unpackEntries cwd (Pack fs opts now .success).1
      (metadataEntry (packMeta opts now) :: es) uopts =
      { fs := (unpackEntries cwd (Pack fs opts now .success).1 es uopts).fs,
        logs := [] ++ (unpackEntries cwd (Pack fs opts now .success).1 es uopts).logs,
        err := (unpackEntries cwd (Pack fs opts now .success).1 es uopts).err } := by
    simp only [unpackEntries, hskipmeta]
  have hfresh1 : ∀ f ∈ opts.files,
      fsLookup (Pack fs opts now .success).1
        (joinPath uopts.targetDir f.relativePath) = none := by
    intro f hf
    rw [hpack1, fsLookup_fsWrite, if_neg (fun hh => harch f hf hh.symm)]
    exact hfresh f hf
  obtain ⟨r_err, r_unt, r_rec⟩ :=
    unpackEntries_roundtrip cwd uopts fs opts.files es (Pack fs opts now .success).1
      hF2 hsafe hmeta hfresh1 hdist
  refine ⟨hpack2, ?_, ?_, ?_⟩
  · rw [hun, hstep]; exact r_err
  · intro f hf d bs hl hc
    rw [hun, hstep]
    exact r_rec f hf d bs hl hc
  · intro p hp
    rw [hun, hstep]
    exact r_unt p hp

/-- First file of the concrete round trip. -/
def fileW1 : EnvFile :=
  { path := "/r/.env", relativePath := ".env", size := 2, modTime := 7, checksum := "c1" }

/-- Second file of the concrete round trip. -/
def fileW2 : EnvFile :=
  { path := "/r/a/.env", relativePath := "a/.env", size := 1, modTime := 8, checksum := "c2" }

/-- Filesystem of the concrete round trip. -/
def fsW1 : FS :=
  [("/r/.env", { content := .bytes [1, 2], mode := 0o644, mtime := 7 }),
   ("/r/a/.env", { content := .bytes [3], mode := 0o640, mtime := 8 })]

/-- Pack options of the concrete round trip. -/
def optsW1 : PackOptions :=
  { files := [fileW1, fileW2], outputPath := "/proj/.goingenv/a.enc",
    password := "pw", description := "d" }

/-- Unpack options of the concrete round trip. -/
def uoptsW1 : UnpackOptions :=
  { archivePath := "/proj/.goingenv/a.enc", password := "pw", targetDir := "/out",
    overwrite := false, backup := false }

/-- Witness for C1 (amended) at a two-file tree. -/
theorem pack_unpack_roundtrip_witness :
    (Pack fsW1 optsW1 100 .success).2 = none ∧
    (Unpack "/" (Pack fsW1 optsW1 100 .success).1 uoptsW1).err = none ∧
    fsLookup (Unpack "/" (Pack fsW1 optsW1 100 .success).1 uoptsW1).fs "/out/.env" =
      some { content := .bytes [1, 2], mode := 0o600, mtime := 7 } ∧
    fsLookup (Unpack "/" (Pack fsW1 optsW1 100 .success).1 uoptsW1).fs "/out/a/.env" =
      some { content := .bytes [3], mode := 0o600, mtime := 8 } := by
  obtain ⟨h1, h2, h3, _⟩ := pack_unpack_roundtrip "/" fsW1 optsW1 uoptsW1 100
    (by decide) (by decide) rfl rfl
    (by
      intro f hf
      simp [optsW1] at hf
      rcases hf with rfl | rfl
      · exact ⟨{ content := .bytes [1, 2], mode := 0o644, mtime := 7 }, [1, 2], rfl, rfl⟩
      · exact ⟨{ content := .bytes [3], mode := 0o640, mtime := 8 }, [3], rfl, rfl⟩)
    (by decide) (by decide) (by decide) (by decide) (by decide)
  refine ⟨h1, h2, ?_, ?_⟩
  · exact h3 fileW1 (by decide) { content := .bytes [1, 2], mode := 0o644, mtime := 7 }
      [1, 2] rfl rfl
  · exact h3 fileW2 (by decide) { content := .bytes [3], mode := 0o640, mtime := 8 }
      [3] rfl rfl

/-- The file whose name breaks the round trip. -/
def fileX : EnvFile :=
  { path := "/r/foo..bar", relativePath := "foo..bar", size := 1, modTime := 3,
    checksum := "c" }

/-- Filesystem containing the file `foo..bar`. -/
def fsX : FS := [("/r/foo..bar", { content := .bytes [5], mode := 0o644, mtime := 3 })]

/-- Pack options for the `foo..bar` round trip. -/
def optsX : PackOptions :=
  { files := [fileX], outputPath := "/arch/x.enc", password := "pw", description := "" }

/-- Unpack options for the `foo..bar` round trip. -/
def uoptsX : UnpackOptions :=
  { archivePath := "/arch/x.enc", password := "pw", targetDir := "/out",
    overwrite := false, backup := false }

/-- C1 counterexample.  A perfectly packable file on disk whose relative
path is the single segment `foo..bar` packs fine with a non-empty
password, but unpacking into a fresh target directory fails with the
unsafe-path error (the validator rejects the `..` substring) and the file
is NOT recreated — so the unqualified round-trip property is false. -/
theorem roundtrip_fails_on_dotdot_name :
    (Pack fsX optsX 9 .success).2 = none ∧
    (Unpack "/" (Pack fsX optsX 9 .success).1 uoptsX).err =
      some (.archiveError "unpack" "foo..bar" (.msg "unsafe path detected: foo..bar")) ∧
    fsLookup (Unpack "/" (Pack fsX optsX 9 .success).1 uoptsX).fs "/out/foo..bar" =
      none :=
  ⟨rfl, rfl, rfl⟩
